import Mathlib

/-!
Verification development for the ASRMixingRouter repository (voxmux).

The Rust source is shallowly embedded: f32 sample and volume values are
idealized as rationals (ℚ), lock-free SPSC ring buffers become lists
(consumer side) or a capacity/contents pair (producer side), and the
stateful mixer/host objects become Lean structures with pure transition
functions.  Definitions follow the Rust source files named in the
comments; field and function names keep the source names where the
checker's lexical rules allow it (the Rust field `prefix` is rendered
as `pfx`).
-/

set_option maxHeartbeats 1000000
set_option maxRecDepth 10000

namespace Voxmux

/-! ## Ring buffer (ringbuf crate, as used by the mixer)

`HeapProd<f32>`: `push_slice(src)` appends as many samples as fit and
returns the number accepted.  The consumer side used by the mixer is
`pop_slice`, which drains up to the destination length in FIFO order;
a consumer half is modelled by its current queue contents (a list). -/

structure HeapRing where
  capacity : Nat
  data : List ℚ
  deriving DecidableEq

/-- `push_slice`: accept `min src.length free` samples, append them,
return the accepted count (overflow silently dropped). -/
def HeapRing.pushSlice (r : HeapRing) (src : List ℚ) : Nat × HeapRing :=
  let accepted := min src.length (r.capacity - r.data.length)
  (accepted, { r with data := r.data ++ src.take accepted })

/-! ## Mixer (src/crates/voxmux-audio/src/mixer.rs) -/

/-- `InputControls` (mixer.rs lines 8-42): id, volume (atomic f32 bits,
idealized to ℚ), muted flag. -/
structure InputControls where
  id : String
  volume : ℚ
  muted : Bool
  deriving DecidableEq

def InputControls.set_volume (c : InputControls) (v : ℚ) : InputControls :=
  { c with volume := v }

def InputControls.set_muted (c : InputControls) (m : Bool) : InputControls :=
  { c with muted := m }

/-- `InputHandle` (mixer.rs lines 46-75) wraps the shared controls. -/
structure InputHandle where
  controls : InputControls
  deriving DecidableEq

def InputHandle.volume (h : InputHandle) : ℚ := h.controls.volume

/-- mixer.rs line 60-62: `self.controls.set_volume(v.max(0.0))`. -/
def InputHandle.set_volume (h : InputHandle) (v : ℚ) : InputHandle :=
  { h with controls := h.controls.set_volume (max v 0) }

def InputHandle.is_muted (h : InputHandle) : Bool := h.controls.muted

def InputHandle.set_muted (h : InputHandle) (m : Bool) : InputHandle :=
  { h with controls := h.controls.set_muted m }

/-- `MixerInput` (mixer.rs lines 79-82): a consumer half plus shared
controls.  The consumer is modelled by its queued samples. -/
structure MixerInput where
  consumer : List ℚ
  controls : InputControls
  deriving DecidableEq

/-- `Mixer` (mixer.rs lines 86-91).  `mix_buffer` and `read_buffer` are
scratch buffers of length `mix_block_size`; only their common length is
state (their contents are overwritten every cycle), kept as `blockSize`. -/
structure Mixer where
  inputs : List MixerInput
  output : HeapRing
  blockSize : Nat
  deriving DecidableEq

/-- The inner accumulation loop of `mix_once` (mixer.rs lines 140-142):
`for i in 0..n { mix_buffer[i] += read_buffer[i] * vol }`, where the
first `n` slots of the read buffer hold the drained samples. -/
def addInto : List ℚ → List ℚ → ℚ → List ℚ
  | acc, [], _ => acc
  | [], _ :: _, _ => []
  | a :: as, s :: ss, vol => (a + s * vol) :: addInto as ss vol

/-- One input's effect on the mix accumulator (mixer.rs lines 138-143):
muted inputs leave it unchanged, unmuted ones add their drained samples
scaled by the volume read for this cycle. -/
def bufStep (block : Nat) (b : List ℚ) (inp : MixerInput) : List ℚ :=
  if inp.controls.muted then b
  else addInto b (inp.consumer.take block) inp.controls.volume

/-- Draining an input's consumer by up to `block` samples
(mixer.rs line 133, `pop_slice` into the read buffer). -/
def drainInput (block : Nat) (inp : MixerInput) : MixerInput :=
  { inp with consumer := inp.consumer.drop block }

/-- One iteration of the `for input in &mut self.inputs` loop of
`mix_once` (mixer.rs lines 130-144), acting on the state triple
(mix buffer, max_read so far, already-processed inputs). -/
def mixStep (block : Nat) (st : List ℚ × Nat × List MixerInput) (inp : MixerInput) :
    List ℚ × Nat × List MixerInput :=
  (bufStep block st.1 inp,
   max st.2.1 (inp.consumer.take block).length,
   st.2.2 ++ [drainInput block inp])

/-- `Mixer::mix_once` (mixer.rs lines 118-152). -/
def Mixer.mix_once (m : Mixer) : Nat × Mixer :=
  if m.inputs.isEmpty then (0, m)
  else
    let st := m.inputs.foldl (mixStep m.blockSize) (List.replicate m.blockSize 0, 0, [])
    if st.2.1 = 0 then (0, { m with inputs := st.2.2 })
    else
      let pushed := m.output.pushSlice (st.1.take st.2.1)
      (pushed.1, { m with inputs := st.2.2, output := pushed.2 })

/-- The `max_read` value a cycle computes (mixer.rs lines 128, 134-136). -/
def mixMaxRead (m : Mixer) : Nat :=
  m.inputs.foldl (fun mr inp => max mr (inp.consumer.take m.blockSize).length) 0

/-- The mix accumulator contents after the input loop. -/
def mixBufferOf (m : Mixer) : List ℚ :=
  m.inputs.foldl (bufStep m.blockSize) (List.replicate m.blockSize 0)

/-- Written from the spec's words, for the refinement claim C1: one
input's contribution to output position `i` — zero if muted, otherwise
its `i`-th drained sample (zero if it drained fewer) times its volume. -/
def specContribution (block : Nat) (inp : MixerInput) (i : Nat) : ℚ :=
  if inp.controls.muted then 0
  else (inp.consumer.take block).getD i 0 * inp.controls.volume

/-- Written from the spec's words: the `i`-th mixed output sample is the
sum of all inputs' contributions. -/
def specMixedSample (m : Mixer) (i : Nat) : ℚ :=
  (m.inputs.map (fun inp => specContribution m.blockSize inp i)).sum

/-! ### Mixer lemmas -/

lemma addInto_length (acc src : List ℚ) (vol : ℚ) :
    (addInto acc src vol).length = acc.length := by
  induction acc generalizing src with
  | nil => cases src <;> simp [addInto]
  | cons a as ih =>
    cases src with
    | nil => simp [addInto]
    | cons s ss => simp [addInto, ih]

lemma addInto_getD (acc src : List ℚ) (vol : ℚ) (h : src.length ≤ acc.length) (i : Nat) :
    (addInto acc src vol).getD i 0 = acc.getD i 0 + src.getD i 0 * vol := by
  induction acc generalizing src i with
  | nil =>
    cases src with
    | nil => simp [addInto]
    | cons s ss => simp at h
  | cons a as ih =>
    cases src with
    | nil => simp [addInto]
    | cons s ss =>
      cases i with
      | zero => simp [addInto]
      | succ n =>
        simp only [addInto, List.getD_cons_succ]
        exact ih ss (by simpa using h) n

lemma bufStep_length (block : Nat) (b : List ℚ) (inp : MixerInput) :
    (bufStep block b inp).length = b.length := by
  unfold bufStep
  split
  · rfl
  · exact addInto_length ..

lemma bufFold_length (block : Nat) (l : List MixerInput) (b : List ℚ) :
    (l.foldl (bufStep block) b).length = b.length := by
  induction l generalizing b with
  | nil => rfl
  | cons x xs ih => rw [List.foldl_cons, ih, bufStep_length]

lemma take_block_length_le (block : Nat) (c : List ℚ) :
    (c.take block).length ≤ block := by
  simp [List.length_take]

lemma bufStep_getD (block : Nat) (b : List ℚ) (inp : MixerInput)
    (hb : block ≤ b.length) (i : Nat) :
    (bufStep block b inp).getD i 0 = b.getD i 0 + specContribution block inp i := by
  unfold bufStep specContribution
  split
  · simp
  · exact addInto_getD b _ _ (le_trans (take_block_length_le ..) hb) i

lemma bufFold_getD (block : Nat) (l : List MixerInput) (b : List ℚ)
    (hb : block ≤ b.length) (i : Nat) :
    (l.foldl (bufStep block) b).getD i 0 =
      b.getD i 0 + (l.map (fun inp => specContribution block inp i)).sum := by
  induction l generalizing b with
  | nil => simp
  | cons x xs ih =>
    rw [List.foldl_cons, ih _ (by rw [bufStep_length]; exact hb),
      bufStep_getD block b x hb i]
    simp [add_assoc]

lemma replicate_getD (n i : Nat) : (List.replicate n (0 : ℚ)).getD i 0 = 0 := by
  induction n generalizing i with
  | zero => simp
  | succ k ih =>
    cases i with
    | zero => simp [List.replicate]
    | succ j => simp [List.replicate, ih j]

lemma mixBufferOf_getD (m : Mixer) (i : Nat) :
    (mixBufferOf m).getD i 0 = specMixedSample m i := by
  unfold mixBufferOf specMixedSample
  rw [bufFold_getD _ _ _ (by simp) i, replicate_getD, zero_add]

lemma mixBufferOf_length (m : Mixer) : (mixBufferOf m).length = m.blockSize := by
  unfold mixBufferOf
  rw [bufFold_length, List.length_replicate]

lemma maxFold_le (block : Nat) (l : List MixerInput) (mr : Nat) (h : mr ≤ block) :
    l.foldl (fun mr inp => max mr (inp.consumer.take block).length) mr ≤ block := by
  induction l generalizing mr with
  | nil => exact h
  | cons x xs ih =>
    exact ih _ (max_le h (take_block_length_le ..))

lemma mixMaxRead_le_block (m : Mixer) : mixMaxRead m ≤ m.blockSize :=
  maxFold_le _ _ _ (Nat.zero_le _)

/-- The three components of the per-input loop fold are independent. -/
lemma foldl_mixStep (block : Nat) (l : List MixerInput)
    (b : List ℚ) (mr : Nat) (done : List MixerInput) :
    l.foldl (mixStep block) (b, mr, done) =
      (l.foldl (bufStep block) b,
       l.foldl (fun mr inp => max mr (inp.consumer.take block).length) mr,
       done ++ l.map (drainInput block)) := by
  induction l generalizing b mr done with
  | nil => simp
  | cons x xs ih =>
    rw [List.foldl_cons, mixStep, ih]
    simp

/-- Characterization of `mix_once` on the push branch. -/
lemma mix_once_eq (m : Mixer) (h1 : m.inputs ≠ []) (h2 : mixMaxRead m ≠ 0) :
    m.mix_once =
      ((m.output.pushSlice ((mixBufferOf m).take (mixMaxRead m))).1,
       { m with inputs := m.inputs.map (drainInput m.blockSize),
                output := (m.output.pushSlice ((mixBufferOf m).take (mixMaxRead m))).2 }) := by
  unfold Mixer.mix_once
  rw [foldl_mixStep]
  have hne : m.inputs.isEmpty = false := by
    cases hm : m.inputs with
    | nil => exact absurd hm h1
    | cons a as => rfl
  simp only [hne, Bool.false_eq_true, if_false]
  have : m.inputs.foldl
      (fun mr inp => max mr (inp.consumer.take m.blockSize).length) 0 = mixMaxRead m := rfl
  rw [this]
  simp only [h2, if_false, List.nil_append]
  rfl

/-- Characterization of `mix_once` when `max_read` is zero. -/
lemma mix_once_eq_zero (m : Mixer) (h2 : mixMaxRead m = 0) :
    m.mix_once = (0, { m with inputs := m.inputs.map (drainInput m.blockSize) }) := by
  unfold Mixer.mix_once
  rw [foldl_mixStep]
  have : m.inputs.foldl
      (fun mr inp => max mr (inp.consumer.take m.blockSize).length) 0 = mixMaxRead m := rfl
  rw [this]
  cases hm : m.inputs with
  | nil =>
    have hmap : List.map (drainInput m.blockSize) m.inputs = m.inputs := by rw [hm]; rfl
    simp [h2, hmap, ← hm]
  | cons a as =>
    rw [← hm]
    have hne : m.inputs.isEmpty = false := by rw [hm]; rfl
    simp [hne, h2]

lemma mixBufferOf_take_eq (m : Mixer) :
    (mixBufferOf m).take (mixMaxRead m) =
      (List.range (mixMaxRead m)).map (specMixedSample m) := by
  apply List.ext_getElem
  · rw [List.length_take, mixBufferOf_length, List.length_map, List.length_range]
    exact min_eq_left (mixMaxRead_le_block m)
  · intro i h1' h2'
    have hi : i < (mixBufferOf m).length := by
      rw [List.length_take] at h1'
      exact lt_of_lt_of_le h1' (min_le_right _ _)
    rw [List.getElem_take, List.getElem_map, List.getElem_range,
      ← List.getD_eq_getElem (mixBufferOf m) 0 hi, mixBufferOf_getD]

lemma mix_once_nil (m : Mixer) (h : m.inputs = []) : m.mix_once = (0, m) := by
  unfold Mixer.mix_once
  simp [h]

/-- C1: for every mix cycle with at least one input and positive
`max_read`, the slice pushed to the output producer is exactly the
spec-side mix — at each position `i < max_read` the sum over inputs of
their contribution (zero when muted, `i`-th drained sample times the
cycle's volume otherwise) — and the returned value is how many of those
`max_read` samples the output ring accepted. -/
theorem mix_once_refines_spec (m : Mixer) (h1 : m.inputs ≠ []) (h2 : 0 < mixMaxRead m) :
    (m.mix_once).1 = min (mixMaxRead m) (m.output.capacity - m.output.data.length)
    ∧ (m.mix_once).2.output.data
        = m.output.data ++
          ((List.range (mixMaxRead m)).map (specMixedSample m)).take (m.mix_once).1 := by
  rw [mix_once_eq m h1 (Nat.pos_iff_ne_zero.mp h2), mixBufferOf_take_eq]
  constructor
  · simp [HeapRing.pushSlice]
  · simp [HeapRing.pushSlice]

def c1Mixer : Mixer :=
  ⟨[⟨[1, 2], ⟨"a", 1, false⟩⟩, ⟨[3], ⟨"b", 2, false⟩⟩], ⟨8, []⟩, 4⟩

theorem mix_once_refines_spec_witness :
    (c1Mixer.mix_once).1
        = min (mixMaxRead c1Mixer) (c1Mixer.output.capacity - c1Mixer.output.data.length)
    ∧ (c1Mixer.mix_once).2.output.data
        = c1Mixer.output.data ++
          ((List.range (mixMaxRead c1Mixer)).map (specMixedSample c1Mixer)).take
            (c1Mixer.mix_once).1 :=
  mix_once_refines_spec c1Mixer (by decide) (by decide)

def c5Mixer : Mixer := ⟨[⟨List.replicate 32 1, ⟨"a", 1, true⟩⟩], ⟨1024, []⟩, 128⟩

/-- C5: every input's ring is drained by up to `mix_block_size` samples
regardless of its mute flag (the post-cycle consumers are exactly the
pre-cycle ones with up to a block dropped); and concretely, one muted
input holding 32 samples of `1.0` gives `mix_once = 32`, an output of
32 zeros, and an empty input ring afterwards. -/
theorem mix_once_always_drains :
    (∀ m : Mixer, (m.mix_once).2.inputs = m.inputs.map (drainInput m.blockSize))
    ∧ (c5Mixer.mix_once).1 = 32
    ∧ (c5Mixer.mix_once).2.output.data = List.replicate 32 0
    ∧ (c5Mixer.mix_once).2.inputs.map MixerInput.consumer = [[]] := by
  refine ⟨fun m => ?_, by decide, by decide, by decide⟩
  by_cases h1 : m.inputs = []
  · rw [mix_once_nil m h1, h1]
    rfl
  · by_cases h2 : mixMaxRead m = 0
    · rw [mix_once_eq_zero m h2]
    · rw [mix_once_eq m h1 h2]

/-- C8: `mix_once` returns 0 and leaves the output untouched when the
mixer has no inputs, and likewise when `max_read` is zero (every input
drained nothing). -/
theorem mix_once_frame :
    (∀ m : Mixer, m.inputs = [] → m.mix_once = (0, m))
    ∧ (∀ m : Mixer, mixMaxRead m = 0 →
        (m.mix_once).1 = 0 ∧ (m.mix_once).2.output = m.output) := by
  constructor
  · exact mix_once_nil
  · intro m h
    rw [mix_once_eq_zero m h]
    exact ⟨rfl, rfl⟩

def c8MixerA : Mixer := ⟨[], ⟨4, [5]⟩, 2⟩

def c8MixerB : Mixer := ⟨[⟨[], ⟨"a", 1, false⟩⟩], ⟨4, [5]⟩, 2⟩

theorem mix_once_frame_witness :
    c8MixerA.mix_once = (0, c8MixerA)
    ∧ (c8MixerB.mix_once).1 = 0 ∧ (c8MixerB.mix_once).2.output = c8MixerB.output :=
  ⟨mix_once_frame.1 c8MixerA rfl, mix_once_frame.2 c8MixerB (by decide)⟩

/-- C9: `InputHandle::set_volume` clamps negative values to `0` and
stores nonnegative values unchanged — in particular values above `1`
are not clamped.  (f32 values are idealized as rationals.) -/
theorem set_volume_clamps (h : InputHandle) (v : ℚ) :
    (v < 0 → (h.set_volume v).volume = 0)
    ∧ (0 ≤ v → (h.set_volume v).volume = v)
    ∧ (1 < v → (h.set_volume v).volume = v) := by
  refine ⟨fun hv => ?_, fun hv => ?_, fun hv => ?_⟩
  · exact max_eq_right hv.le
  · exact max_eq_left hv
  · exact max_eq_left (by linarith)

def c9Handle : InputHandle := ⟨⟨"a", 1, false⟩⟩

theorem set_volume_clamps_witness :
    (c9Handle.set_volume (-2)).volume = 0
    ∧ (c9Handle.set_volume (5 / 2)).volume = 5 / 2 :=
  ⟨(set_volume_clamps c9Handle (-2)).1 (by norm_num),
   (set_volume_clamps c9Handle (5 / 2)).2.1 (by norm_num)⟩

/-! ## CaptureHandle (src/crates/voxmux-audio/src/capture.rs)

`enabled` is an `AtomicBool` and `status` a separate `AtomicU8`; the
handle state is the pair plus the id. -/

/-- `InputStatus` (voxmux-core/src/tui_types.rs). -/
inductive InputStatus where
  | Ok
  | Error
  | Disabled
  deriving DecidableEq

structure CaptureHandle where
  enabled : Bool
  statusByte : Nat
  id : String
  deriving DecidableEq

def CaptureHandle.is_enabled (h : CaptureHandle) : Bool := h.enabled

def CaptureHandle.set_enabled (h : CaptureHandle) (v : Bool) : CaptureHandle :=
  { h with enabled := v }

/-- capture.rs lines 29-35: decode the status byte
(`1 => Error, 2 => Disabled, _ => Ok`). -/
def CaptureHandle.status (h : CaptureHandle) : InputStatus :=
  if h.statusByte = 1 then .Error
  else if h.statusByte = 2 then .Disabled
  else .Ok

def CaptureHandle.set_status (h : CaptureHandle) (s : InputStatus) : CaptureHandle :=
  { h with statusByte := match s with | .Ok => 0 | .Error => 1 | .Disabled => 2 }

/-- `CaptureNode::new` (capture.rs lines 74-76, 109-113) starts the
handle enabled with status byte 0. -/
def initCaptureHandle (id : String) : CaptureHandle := ⟨true, 0, id⟩

/-- The status the state-broadcast task shows for an input
(src/src/main.rs lines 307-312): a disabled handle is displayed as
`Disabled`, otherwise the handle's own status. -/
def displayedStatus (h : CaptureHandle) : InputStatus :=
  if !h.is_enabled then .Disabled else h.status

/-- Handle states reachable in the program: the initial state from
`CaptureNode::new`, `set_enabled` (UI command handler and config
reload), and the stream-error callback storing byte 1
(capture.rs line 81).  No call site stores `Disabled` (byte 2). -/
inductive ReachableCapture : CaptureHandle → Prop where
  | init (id : String) : ReachableCapture (initCaptureHandle id)
  | setEnabled (h : CaptureHandle) (b : Bool) :
      ReachableCapture h → ReachableCapture (h.set_enabled b)
  | streamError (h : CaptureHandle) :
      ReachableCapture h → ReachableCapture { h with statusByte := 1 }

lemma reachable_statusByte_ne_two (h : CaptureHandle) (hr : ReachableCapture h) :
    h.statusByte ≠ 2 := by
  induction hr with
  | init id => simp [initCaptureHandle]
  | setEnabled h b _ ih => exact ih
  | streamError h _ _ => simp

/-- Counterexample to C4: disabling a freshly created handle leaves its
own `status()` at `Ok`, not `Disabled` — the status byte is an
independent atomic that `set_enabled` never touches. -/
theorem capture_status_counterexample :
    ((initCaptureHandle "mic1").set_enabled false).is_enabled = false
    ∧ ((initCaptureHandle "mic1").set_enabled false).status ≠ InputStatus.Disabled := by
  decide

/-- C4 (amended): the `CaptureHandle`'s own `status()` is independent of
`enabled`; the `Disabled`-iff-disabled equivalence holds for the status
the state-broadcast task displays, for every handle state the program
can reach (no call site ever stores the `Disabled` byte directly). -/
theorem displayed_status_disabled_iff (h : CaptureHandle) (hr : ReachableCapture h) :
    displayedStatus h = InputStatus.Disabled ↔ h.is_enabled = false := by
  unfold displayedStatus
  cases he : h.is_enabled with
  | false => simp
  | true =>
    simp only [he, Bool.not_true, Bool.false_eq_true, if_false]
    constructor
    · intro hs
      have h2 := reachable_statusByte_ne_two h hr
      unfold CaptureHandle.status at hs
      by_cases hb1 : h.statusByte = 1
      · simp [hb1] at hs
      · simp [hb1, h2] at hs
    · intro hfalse
      cases hfalse

theorem displayed_status_disabled_iff_witness :
    displayedStatus ((initCaptureHandle "mic1").set_enabled false) = InputStatus.Disabled
      ↔ ((initCaptureHandle "mic1").set_enabled false).is_enabled = false :=
  displayed_status_disabled_iff _
    (ReachableCapture.setEnabled _ false (ReachableCapture.init "mic1"))

/-! ## AppConfig and ConfigDiff
(src/crates/voxmux-core/src/config_diff.rs; the config shape follows
src/crates/asr-core/src/config.rs, which mirrors the voxmux-core config
the diff is computed over.  Fields never consulted by the diff or the
reload path — `log_level` aside, `destinations`, `asr.whisper` — are
omitted or inert; f32 volumes are idealized as ℚ.) -/

structure GeneralConfig where
  log_level : String
  sample_rate : Nat
  buffer_size : Nat
  deriving DecidableEq

structure OutputConfig where
  device_name : String
  play_mixed_input : Bool
  deriving DecidableEq

structure InputConfig where
  id : String
  device_name : String
  enabled : Bool
  volume : ℚ
  muted : Bool
  deriving DecidableEq

structure AsrConfig where
  engine : String
  deriving DecidableEq

structure AppConfig where
  general : GeneralConfig
  output : OutputConfig
  input : List InputConfig
  asr : Option AsrConfig
  deriving DecidableEq

/-- `f32::EPSILON` is 2⁻²³. -/
def f32Epsilon : ℚ := 1 / 2 ^ 23

/-- `f32::abs`, written executably so diffs evaluate by `decide`. -/
def ratAbs (q : ℚ) : ℚ := if q < 0 then -q else q

def sampleRateMsg (a b : Nat) : String :=
  "sample_rate changed (" ++ toString a ++ " → " ++ toString b ++ "), requires restart"

def bufferSizeMsg (a b : Nat) : String :=
  "buffer_size changed (" ++ toString a ++ " → " ++ toString b ++ "), requires restart"

def outputDeviceMsg (a b : String) : String :=
  "output device changed ('" ++ a ++ "' → '" ++ b ++ "'), requires restart"

def inputDeviceMsg (id a b : String) : String :=
  "input '" ++ id ++ "' device changed ('" ++ a ++ "' → '" ++ b ++ "'), requires restart"

def asrEngineMsg (a b : String) : String :=
  "ASR engine changed ('" ++ a ++ "' → '" ++ b ++ "'), requires restart"

/-- `ConfigDiff` (config_diff.rs lines 4-10).  Note: there is no field
for enabled/disabled changes. -/
structure ConfigDiff where
  volume_changes : List (String × ℚ)
  mute_changes : List (String × Bool)
  play_mixed_change : Option Bool
  non_reloadable : List String
  deriving DecidableEq

/-- `Self::default()`. -/
def ConfigDiff.empty : ConfigDiff := ⟨[], [], none, []⟩

/-- The body of the `for new_input in &new.input` loop
(config_diff.rs lines 47-69). -/
def inputStep (oldInputs : List InputConfig) (r : ConfigDiff) (new_input : InputConfig) :
    ConfigDiff :=
  match oldInputs.find? (fun i => i.id == new_input.id) with
  | some old_input =>
    let r := if f32Epsilon < ratAbs (old_input.volume - new_input.volume) then
        { r with volume_changes := r.volume_changes ++ [(new_input.id, new_input.volume)] }
      else r
    let r := if old_input.muted ≠ new_input.muted then
        { r with mute_changes := r.mute_changes ++ [(new_input.id, new_input.muted)] }
      else r
    if old_input.device_name ≠ new_input.device_name then
      { r with non_reloadable := r.non_reloadable ++
          [inputDeviceMsg new_input.id old_input.device_name new_input.device_name] }
    else r
  | none => r

/-- `ConfigDiff::diff` (config_diff.rs lines 16-83). -/
def ConfigDiff.diff (old new : AppConfig) : ConfigDiff :=
  let r := ConfigDiff.empty
  let r := if old.general.sample_rate ≠ new.general.sample_rate then
      { r with non_reloadable := r.non_reloadable ++
          [sampleRateMsg old.general.sample_rate new.general.sample_rate] }
    else r
  let r := if old.general.buffer_size ≠ new.general.buffer_size then
      { r with non_reloadable := r.non_reloadable ++
          [bufferSizeMsg old.general.buffer_size new.general.buffer_size] }
    else r
  let r := if old.output.device_name ≠ new.output.device_name then
      { r with non_reloadable := r.non_reloadable ++
          [outputDeviceMsg old.output.device_name new.output.device_name] }
    else r
  let r := if old.output.play_mixed_input ≠ new.output.play_mixed_input then
      { r with play_mixed_change := some new.output.play_mixed_input }
    else r
  let r := new.input.foldl (inputStep old.input) r
  match old.asr, new.asr with
  | some oldAsr, some newAsr =>
    if oldAsr.engine ≠ newAsr.engine then
      { r with non_reloadable := r.non_reloadable ++
          [asrEngineMsg (oldAsr).engine (newAsr).engine] }
    else r
  | _, _ => r

/-- The reload path's per-input enabled application
(src/src/main.rs lines 465-477): find the first handle with the input's
id and `set_enabled` it when the value differs. -/
def reloadSetEnabledById : List CaptureHandle → String → Bool → List CaptureHandle
  | [], _, _ => []
  | h :: hs, id, e =>
    if h.id = id then
      (if h.is_enabled ≠ e then h.set_enabled e else h) :: hs
    else h :: reloadSetEnabledById hs id e

/-- The `for new_input in &new_config.input` application loop
(main.rs lines 464-477). -/
def applyEnabledFromConfig (handles : List CaptureHandle) (cfg : AppConfig) :
    List CaptureHandle :=
  cfg.input.foldl (fun hs inp => reloadSetEnabledById hs inp.id inp.enabled) handles

/-! ### ConfigDiff characterization -/

def inputVolEntry (oldInputs : List InputConfig) (x : InputConfig) : List (String × ℚ) :=
  match oldInputs.find? (fun i => i.id == x.id) with
  | some y => if f32Epsilon < ratAbs (y.volume - x.volume) then [(x.id, x.volume)] else []
  | none => []

def inputMuteEntry (oldInputs : List InputConfig) (x : InputConfig) : List (String × Bool) :=
  match oldInputs.find? (fun i => i.id == x.id) with
  | some y => if y.muted ≠ x.muted then [(x.id, x.muted)] else []
  | none => []

def inputNonRelEntry (oldInputs : List InputConfig) (x : InputConfig) : List String :=
  match oldInputs.find? (fun i => i.id == x.id) with
  | some y => if y.device_name ≠ x.device_name then
      [inputDeviceMsg x.id y.device_name x.device_name] else []
  | none => []

def asrEntry : Option AsrConfig → Option AsrConfig → List String
  | some oa, some na => if oa.engine ≠ na.engine then [asrEngineMsg oa.engine na.engine] else []
  | _, _ => []

lemma inputStep_eq (oldIn : List InputConfig) (r : ConfigDiff) (x : InputConfig) :
    inputStep oldIn r x =
      { volume_changes := r.volume_changes ++ inputVolEntry oldIn x,
        mute_changes := r.mute_changes ++ inputMuteEntry oldIn x,
        play_mixed_change := r.play_mixed_change,
        non_reloadable := r.non_reloadable ++ inputNonRelEntry oldIn x } := by
  unfold inputStep inputVolEntry inputMuteEntry inputNonRelEntry
  cases hf : oldIn.find? (fun i => i.id == x.id) with
  | none => simp
  | some y => dsimp only; split_ifs <;> simp

lemma foldl_inputStep (oldIn : List InputConfig) (l : List InputConfig) (r : ConfigDiff) :
    l.foldl (inputStep oldIn) r =
      { volume_changes := r.volume_changes ++ (l.map (inputVolEntry oldIn)).flatten,
        mute_changes := r.mute_changes ++ (l.map (inputMuteEntry oldIn)).flatten,
        play_mixed_change := r.play_mixed_change,
        non_reloadable := r.non_reloadable ++ (l.map (inputNonRelEntry oldIn)).flatten } := by
  induction l generalizing r with
  | nil => simp
  | cons x xs ih =>
    rw [List.foldl_cons, inputStep_eq, ih]
    simp

lemma diff_eq (old new : AppConfig) :
    ConfigDiff.diff old new =
      { volume_changes := (new.input.map (inputVolEntry old.input)).flatten,
        mute_changes := (new.input.map (inputMuteEntry old.input)).flatten,
        play_mixed_change :=
          if old.output.play_mixed_input ≠ new.output.play_mixed_input
          then some new.output.play_mixed_input else none,
        non_reloadable :=
          (if old.general.sample_rate ≠ new.general.sample_rate
           then [sampleRateMsg old.general.sample_rate new.general.sample_rate] else [])
          ++ (if old.general.buffer_size ≠ new.general.buffer_size
              then [bufferSizeMsg old.general.buffer_size new.general.buffer_size] else [])
          ++ (if old.output.device_name ≠ new.output.device_name
              then [outputDeviceMsg old.output.device_name new.output.device_name] else [])
          ++ (new.input.map (inputNonRelEntry old.input)).flatten
          ++ asrEntry old.asr new.asr } := by
  unfold ConfigDiff.diff ConfigDiff.empty
  cases ho : old.asr <;> cases hn : new.asr <;>
    simp only [foldl_inputStep, asrEntry] <;> split_ifs <;> simp_all

lemma flatten_eq_nil_of {α : Type} (L : List (List α)) (h : ∀ l ∈ L, l = []) :
    L.flatten = [] := by
  induction L with
  | nil => rfl
  | cons x xs ih =>
    rw [List.flatten_cons, h x (by simp), List.nil_append]
    exact ih fun l hl => h l (by simp [hl])

lemma asrEntry_same (o : Option AsrConfig) : asrEntry o o = [] := by
  cases o with
  | none => rfl
  | some a => simp [asrEntry]

lemma eps_not_lt_abs_self_sub (v : ℚ) : ¬ f32Epsilon < ratAbs (v - v) := by
  rw [sub_self, f32Epsilon, ratAbs]
  norm_num

/-- With no duplicate ids, `find?` by the `j`-th element's id returns
the `j`-th element itself. -/
lemma find_nodup (l : List InputConfig) (hnd : (l.map InputConfig.id).Nodup)
    (j : Nat) (hj : j < l.length) :
    l.find? (fun i => i.id == l[j].id) = some l[j] := by
  induction l generalizing j with
  | nil => exact absurd hj (Nat.not_lt_zero j)
  | cons a as ih =>
    rw [List.map_cons, List.nodup_cons] at hnd
    cases j with
    | zero =>
      rw [List.getElem_cons_zero, List.find?_cons_of_pos _ (by simp)]
    | succ k =>
      have hk : k < as.length := by simpa using hj
      rw [List.getElem_cons_succ, List.find?_cons_of_neg, ih hnd.2 k hk]
      simp only [beq_iff_eq]
      intro heq
      exact hnd.1 (heq ▸ List.mem_map_of_mem InputConfig.id (as.getElem_mem hk))

/-- If the input lists of two configs are aligned by a relation that
includes id equality, and the old ids have no duplicates, then the
`find?` in the diff loop returns exactly the aligned partner. -/
lemma find_aligned {P : InputConfig → InputConfig → Prop}
    {oldIn newIn : List InputConfig}
    (hR : List.Forall₂ (fun a b => a.id = b.id ∧ P a b) oldIn newIn)
    (hnd : (oldIn.map InputConfig.id).Nodup)
    {x : InputConfig} (hx : x ∈ newIn) :
    ∃ y, oldIn.find? (fun i => i.id == x.id) = some y ∧ P y x := by
  obtain ⟨j, hj, hx'⟩ := List.getElem_of_mem hx
  subst hx'
  have hlen : oldIn.length = newIn.length := hR.length_eq
  have hj' : j < oldIn.length := by omega
  have hRj := (List.forall₂_iff_get.mp hR).2 j hj' hj
  simp only [List.get_eq_getElem] at hRj
  refine ⟨oldIn[j], ?_, hRj.2⟩
  rw [← hRj.1]
  exact find_nodup oldIn hnd j hj'

/-- Configs used in the C3 counterexample: identical except for the
`enabled` flag of input `mic1`. -/
def c3Old : AppConfig :=
  ⟨⟨"info", 48000, 1024⟩, ⟨"speakers", true⟩, [⟨"mic1", "USB Mic", true, 1, false⟩], none⟩

def c3New : AppConfig :=
  ⟨⟨"info", 48000, 1024⟩, ⟨"speakers", true⟩, [⟨"mic1", "USB Mic", false, 1, false⟩], none⟩

/-- Counterexample to C3: two configs that differ exactly in one
input's `enabled` value produce the empty diff — `ConfigDiff` has no
field for enabled changes and `diff` never reads `enabled`. -/
theorem config_diff_enabled_counterexample :
    c3Old.input.map InputConfig.enabled = [true]
    ∧ c3New.input.map InputConfig.enabled = [false]
    ∧ ConfigDiff.diff c3Old c3New = ConfigDiff.empty := by
  refine ⟨rfl, rfl, ?_⟩
  rw [diff_eq, ConfigDiff.empty]
  have hvol : inputVolEntry c3Old.input ⟨"mic1", "USB Mic", false, 1, false⟩ = [] := by
    show (if f32Epsilon < ratAbs ((1 : ℚ) - 1) then [("mic1", (1 : ℚ))] else []) = []
    exact if_neg (eps_not_lt_abs_self_sub 1)
  congr 1
  · show (c3New.input.map (inputVolEntry c3Old.input)).flatten = []
    simp [c3New, hvol]

/-- Set the `enabled` flag of the `i`-th input configuration. -/
def modifyEnabled : List InputConfig → Nat → Bool → List InputConfig
  | [], _, _ => []
  | x :: xs, 0, b => { x with enabled := b } :: xs
  | x :: xs, n + 1, b => x :: modifyEnabled xs n b

lemma modifyEnabled_forall2 (l : List InputConfig) (i : Nat) (b : Bool) :
    List.Forall₂
      (fun a c => a.id = c.id ∧
        (a.device_name = c.device_name ∧ a.volume = c.volume ∧ a.muted = c.muted))
      l (modifyEnabled l i b) := by
  induction l generalizing i with
  | nil => exact List.Forall₂.nil
  | cons x xs ih =>
    cases i with
    | zero =>
      exact List.Forall₂.cons ⟨rfl, rfl, rfl, rfl⟩
        (List.forall₂_same.mpr fun y _ => ⟨rfl, rfl, rfl, rfl⟩)
    | succ k => exact List.Forall₂.cons ⟨rfl, rfl, rfl, rfl⟩ (ih k)

/-- C3 (amended): `ConfigDiff::diff` records no enabled change at all —
for duplicate-free input ids, flipping any input's `enabled` flag
yields the empty diff; the reload path applies enabled values by
reading the new config directly and calling `set_enabled` on the
matching capture handle. -/
theorem config_diff_ignores_enabled :
    (∀ (old : AppConfig) (i : Nat) (b : Bool),
      (old.input.map InputConfig.id).Nodup →
      ConfigDiff.diff old { old with input := modifyEnabled old.input i b } = ConfigDiff.empty)
    ∧ (∀ (h : CaptureHandle) (cfg : AppConfig) (inp : InputConfig),
      cfg.input = [inp] → inp.id = h.id →
      applyEnabledFromConfig [h] cfg = [h.set_enabled inp.enabled]) := by
  constructor
  · intro old i b hnd
    rw [diff_eq]
    have hvol : ∀ x ∈ modifyEnabled old.input i b, inputVolEntry old.input x = [] := by
      intro x hx
      obtain ⟨y, hf, hdev, hv, hm⟩ := find_aligned (modifyEnabled_forall2 old.input i b) hnd hx
      rw [inputVolEntry, hf]
      simp only [hv, sub_self]
      rw [if_neg (by rw [← sub_self x.volume]; exact eps_not_lt_abs_self_sub x.volume)]
    have hmute : ∀ x ∈ modifyEnabled old.input i b, inputMuteEntry old.input x = [] := by
      intro x hx
      obtain ⟨y, hf, hdev, hv, hm⟩ := find_aligned (modifyEnabled_forall2 old.input i b) hnd hx
      rw [inputMuteEntry, hf]
      simp [hm]
    have hdev : ∀ x ∈ modifyEnabled old.input i b, inputNonRelEntry old.input x = [] := by
      intro x hx
      obtain ⟨y, hf, hdev, hv, hm⟩ := find_aligned (modifyEnabled_forall2 old.input i b) hnd hx
      rw [inputNonRelEntry, hf]
      simp [hdev]
    rw [ConfigDiff.empty]
    congr 1
    · exact flatten_eq_nil_of _ fun l hl => by
        obtain ⟨x, hx, rfl⟩ := List.mem_map.mp hl
        exact hvol x hx
    · exact flatten_eq_nil_of _ fun l hl => by
        obtain ⟨x, hx, rfl⟩ := List.mem_map.mp hl
        exact hmute x hx
    · simp
    · rw [asrEntry_same]
      have h3 : ((modifyEnabled old.input i b).map (inputNonRelEntry old.input)).flatten = [] :=
        flatten_eq_nil_of _ fun l hl => by
          obtain ⟨x, hx, rfl⟩ := List.mem_map.mp hl
          exact hdev x hx
      simp [h3]
  · intro h cfg inp hcfg hid
    rw [applyEnabledFromConfig, hcfg, List.foldl_cons, List.foldl_nil, reloadSetEnabledById]
    rw [if_pos hid.symm]
    by_cases he : h.is_enabled ≠ inp.enabled
    · rw [if_pos he]
    · rw [if_neg he]
      have : h.enabled = inp.enabled := not_not.mp he
      cases h
      simp_all [CaptureHandle.set_enabled]

def c3Handle : CaptureHandle := initCaptureHandle "mic1"

theorem config_diff_ignores_enabled_witness :
    ConfigDiff.diff c3Old { c3Old with input := modifyEnabled c3Old.input 0 false }
        = ConfigDiff.empty
    ∧ applyEnabledFromConfig [c3Handle] c3New = [c3Handle.set_enabled false] :=
  ⟨config_diff_ignores_enabled.1 c3Old 0 false (by decide),
   config_diff_ignores_enabled.2 c3Handle c3New ⟨"mic1", "USB Mic", false, 1, false⟩ rfl rfl⟩

/-- C6: configs that differ only in reloadable fields (per-input
volume / muted / enabled, `output.play_mixed_input`) yield an empty
`non_reloadable` list; conversely any change to `general.sample_rate`,
`general.buffer_size`, `output.device_name`, an input's `device_name`
(for an id found in both configs), or `asr.engine` produces a
`non_reloadable` entry. -/
theorem config_diff_classification :
    (∀ old new : AppConfig,
      old.general = new.general →
      old.output.device_name = new.output.device_name →
      old.asr = new.asr →
      List.Forall₂ (fun a b => a.id = b.id ∧ a.device_name = b.device_name)
        old.input new.input →
      (old.input.map InputConfig.id).Nodup →
      (ConfigDiff.diff old new).non_reloadable = [])
    ∧ (∀ old new : AppConfig, old.general.sample_rate ≠ new.general.sample_rate →
        sampleRateMsg old.general.sample_rate new.general.sample_rate
          ∈ (ConfigDiff.diff old new).non_reloadable)
    ∧ (∀ old new : AppConfig, old.general.buffer_size ≠ new.general.buffer_size →
        bufferSizeMsg old.general.buffer_size new.general.buffer_size
          ∈ (ConfigDiff.diff old new).non_reloadable)
    ∧ (∀ old new : AppConfig, old.output.device_name ≠ new.output.device_name →
        outputDeviceMsg old.output.device_name new.output.device_name
          ∈ (ConfigDiff.diff old new).non_reloadable)
    ∧ (∀ (old new : AppConfig) (x y : InputConfig), x ∈ new.input →
        old.input.find? (fun i => i.id == x.id) = some y →
        y.device_name ≠ x.device_name →
        inputDeviceMsg x.id y.device_name x.device_name
          ∈ (ConfigDiff.diff old new).non_reloadable)
    ∧ (∀ (old new : AppConfig) (oa na : AsrConfig),
        old.asr = some oa → new.asr = some na → oa.engine ≠ na.engine →
        asrEngineMsg oa.engine na.engine ∈ (ConfigDiff.diff old new).non_reloadable) := by
  refine ⟨?_, ?_, ?_, ?_, ?_, ?_⟩
  · intro old new hg ho ha hR hnd
    rw [diff_eq]
    have hdev : ∀ x ∈ new.input, inputNonRelEntry old.input x = [] := by
      intro x hx
      obtain ⟨y, hf, hd⟩ := find_aligned hR hnd hx
      rw [inputNonRelEntry, hf]
      simp [hd]
    have h3 : (new.input.map (inputNonRelEntry old.input)).flatten = [] :=
      flatten_eq_nil_of _ fun l hl => by
        obtain ⟨x, hx, rfl⟩ := List.mem_map.mp hl
        exact hdev x hx
    simp [hg, ho, ha, asrEntry_same, h3]
  · intro old new hne
    rw [diff_eq]
    simp [hne]
  · intro old new hne
    rw [diff_eq]
    simp [hne]
  · intro old new hne
    rw [diff_eq]
    simp [hne]
  · intro old new x y hx hf hdev
    rw [diff_eq]
    have hmem : inputDeviceMsg x.id y.device_name x.device_name
        ∈ (new.input.map (inputNonRelEntry old.input)).flatten := by
      rw [List.mem_flatten]
      refine ⟨inputNonRelEntry old.input x, List.mem_map_of_mem _ hx, ?_⟩
      rw [inputNonRelEntry, hf]
      simp [hdev]
    simp [hmem]
  · intro old new oa na hoa hna hne
    rw [diff_eq]
    simp [hoa, hna, asrEntry, hne]

def c6SR : AppConfig := ⟨⟨"info", 44100, 1024⟩, ⟨"speakers", true⟩, [], none⟩

def c6BS : AppConfig := ⟨⟨"info", 48000, 2048⟩, ⟨"speakers", true⟩, [], none⟩

def c6OD : AppConfig := ⟨⟨"info", 48000, 1024⟩, ⟨"headphones", true⟩, [], none⟩

def c6ID : AppConfig :=
  ⟨⟨"info", 48000, 1024⟩, ⟨"speakers", true⟩, [⟨"mic1", "Other Mic", true, 1, false⟩], none⟩

def c6AsrOld : AppConfig := ⟨⟨"info", 48000, 1024⟩, ⟨"speakers", true⟩, [], some ⟨"null"⟩⟩

def c6AsrNew : AppConfig := ⟨⟨"info", 48000, 1024⟩, ⟨"speakers", true⟩, [], some ⟨"whisper"⟩⟩

def c6Reload : AppConfig :=
  ⟨⟨"info", 48000, 1024⟩, ⟨"speakers", false⟩, [⟨"mic1", "USB Mic", false, 2, true⟩], none⟩

theorem config_diff_classification_witness :
    (ConfigDiff.diff c3Old c6Reload).non_reloadable = []
    ∧ sampleRateMsg 48000 44100 ∈ (ConfigDiff.diff c3Old c6SR).non_reloadable
    ∧ bufferSizeMsg 1024 2048 ∈ (ConfigDiff.diff c3Old c6BS).non_reloadable
    ∧ outputDeviceMsg "speakers" "headphones" ∈ (ConfigDiff.diff c3Old c6OD).non_reloadable
    ∧ inputDeviceMsg "mic1" "USB Mic" "Other Mic" ∈ (ConfigDiff.diff c3Old c6ID).non_reloadable
    ∧ asrEngineMsg "null" "whisper" ∈ (ConfigDiff.diff c6AsrOld c6AsrNew).non_reloadable := by
  refine ⟨?_, ?_, ?_, ?_, ?_, ?_⟩
  · exact config_diff_classification.1 c3Old c6Reload rfl rfl rfl
      (List.Forall₂.cons ⟨rfl, rfl⟩ List.Forall₂.nil) (by decide)
  · exact config_diff_classification.2.1 c3Old c6SR (by decide)
  · exact config_diff_classification.2.2.1 c3Old c6BS (by decide)
  · exact config_diff_classification.2.2.2.1 c3Old c6OD (by decide)
  · exact config_diff_classification.2.2.2.2.1 c3Old c6ID
      ⟨"mic1", "Other Mic", true, 1, false⟩ ⟨"mic1", "USB Mic", true, 1, false⟩
      (by decide) rfl (by decide)
  · exact config_diff_classification.2.2.2.2.2 c6AsrOld c6AsrNew ⟨"null"⟩ ⟨"whisper"⟩
      rfl rfl (by decide)

/-! ## Recognition results (asr-core/src/types.rs) -/

structure RecognitionResult where
  text : String
  input_id : String
  timestamp : ℚ
  is_final : Bool
  deriving DecidableEq

/-- `TextMetadata` (voxmux-core types); the Rust field `prefix` is
rendered `pfx`. -/
structure TextMetadata where
  input_id : String
  pfx : String
  deriving DecidableEq

/-! ## DestinationHost (src/crates/voxmux-destination/src/host.rs) -/

inductive DestError where
  | NotFound (name : String)
  | InitFailed (msg : String)
  deriving DecidableEq

/-- A destination instance; for the file plugin the state that matters
is the configured output path (`FileDestination.output_path`,
file_dest.rs), `none` until initialized. -/
structure DestInstance where
  name : String
  path : Option String
  deriving DecidableEq

/-- `DestinationRegistry::create` (registry.rs): only the `file`
factory is registered (`discord` sits behind a cargo feature and is
omitted); unknown names give `NotFound`. -/
def registryCreate (name : String) : Except DestError DestInstance :=
  if name = "file" then .ok ⟨"file", none⟩ else .error (.NotFound name)

/-- `FileDestination::initialize` (file_dest.rs lines 38-47): the TOML
config is modelled by its extracted `path` string; a missing path is an
initialization failure. -/
def fileDestInit (d : DestInstance) (cfgPath : Option String) :
    Except DestError DestInstance :=
  match cfgPath with
  | some p => .ok { d with path := some p }
  | none => .error (.InitFailed "missing 'path' in config")

/-- `Route` (host.rs lines 7-10); `prefix` rendered `pfx`. -/
structure Route where
  destination : DestInstance
  pfx : String
  deriving DecidableEq

/-- `DestinationHost` (host.rs lines 12-17).  `routes` is the
`HashMap<String, Vec<Route>>` as an association list with unique keys;
`taskRoutes` is the map `start()` moves into the spawned task
(`std::mem::take`), `none` before `start`.  The result receiver and
join handle carry no routing state and are omitted. -/
structure DestinationHost where
  routes : List (String × List Route)
  taskRoutes : Option (List (String × List Route))
  deriving DecidableEq

def DestinationHost.new : DestinationHost := ⟨[], none⟩

/-- `self.routes.entry(input_id).or_default().push(route)`. -/
def insertRoute : List (String × List Route) → String → Route → List (String × List Route)
  | [], id, route => [(id, [route])]
  | (k, v) :: rest, id, route =>
    if k = id then (k, v ++ [route]) :: rest
    else (k, v) :: insertRoute rest id route

/-- `DestinationHost::add_route` (host.rs lines 29-50): create from the
registry, initialize, append under the input id. -/
def DestinationHost.add_route (h : DestinationHost) (input_id plugin_name pfx : String)
    (cfgPath : Option String) : Except DestError DestinationHost :=
  match registryCreate plugin_name with
  | .error e => .error e
  | .ok d =>
    match fileDestInit d cfgPath with
    | .error e => .error e
    | .ok d2 => .ok { h with routes := insertRoute h.routes input_id ⟨d2, pfx⟩ }

/-- `DestinationHost::start` (host.rs lines 52-85): the routes map is
moved out of the host into the task (`std::mem::take` leaves it empty). -/
def DestinationHost.start (h : DestinationHost) : DestinationHost :=
  { h with routes := [], taskRoutes := some h.routes }

/-- `routes.get(&result.input_id)`. -/
def lookupRoutes (rs : List (String × List Route)) (id : String) : Option (List Route) :=
  (rs.find? (fun e => e.1 == id)).map (fun e => e.2)

/-- One `send_text(text, metadata)` invocation observed by a
destination. -/
structure SendCall where
  route : Route
  text : String
  metadata : TextMetadata
  deriving DecidableEq

/-- One iteration of the router task loop (host.rs lines 60-81): skip
non-final results, look up the routes for the result's input id, and
call `send_text` once per route with the result text and the route's
prefix. -/
def processResult (rs : List (String × List Route)) (r : RecognitionResult) : List SendCall :=
  if r.is_final = false then []
  else
    match lookupRoutes rs r.input_id with
    | some input_routes =>
      input_routes.map (fun route => ⟨route, r.text, ⟨r.input_id, route.pfx⟩⟩)
    | none => []

/-- The calls the running task makes for one consumed result: it
consults only the moved `taskRoutes` copy. -/
def DestinationHost.taskProcess (h : DestinationHost) (r : RecognitionResult) :
    List SendCall :=
  processResult (h.taskRoutes.getD []) r

/-- C2: a final result produces exactly one `send_text` call per route
registered under its input id, carrying the result's text and the
route's prefix (routes under other ids get none, as all calls come from
that one list); a non-final result, or an input id with no routes,
produces no calls. -/
theorem router_fanout (rs : List (String × List Route)) (r : RecognitionResult) :
    (r.is_final = false → processResult rs r = [])
    ∧ (r.is_final = true → lookupRoutes rs r.input_id = none → processResult rs r = [])
    ∧ (r.is_final = true → ∀ input_routes, lookupRoutes rs r.input_id = some input_routes →
        processResult rs r
            = input_routes.map (fun route => ⟨route, r.text, ⟨r.input_id, route.pfx⟩⟩)
        ∧ (processResult rs r).length = input_routes.length) := by
  refine ⟨?_, ?_, ?_⟩
  · intro hf
    simp [processResult, hf]
  · intro hf hl
    simp [processResult, hf, hl]
  · intro hf input_routes hl
    constructor <;> simp [processResult, hf, hl]

def d1 : DestInstance := ⟨"file", some "a.txt"⟩

def d2 : DestInstance := ⟨"file", some "b.txt"⟩

def d3 : DestInstance := ⟨"file", some "c.txt"⟩

def c2Routes : List (String × List Route) :=
  [("mic1", [⟨d1, "[A] "⟩, ⟨d2, "[B] "⟩]), ("mic2", [⟨d3, ""⟩])]

def c2Final : RecognitionResult := ⟨"fanout", "mic1", 0, true⟩

def c2NonFinal : RecognitionResult := ⟨"partial", "mic1", 0, false⟩

theorem router_fanout_witness :
    processResult c2Routes c2NonFinal = []
    ∧ processResult c2Routes c2Final
        = [⟨⟨d1, "[A] "⟩, "fanout", ⟨"mic1", "[A] "⟩⟩,
           ⟨⟨d2, "[B] "⟩, "fanout", ⟨"mic1", "[B] "⟩⟩] :=
  ⟨(router_fanout c2Routes c2NonFinal).1 rfl,
   ((router_fanout c2Routes c2Final).2.2 rfl [⟨d1, "[A] "⟩, ⟨d2, "[B] "⟩] rfl).1⟩

/-- C10: `add_route` after `start()` still succeeds (the destination is
created and initialized and the route stored under the input id), but
it lands in the host's now-empty `routes` map; the running task keeps
consulting the copy moved out at `start`, so the added route never
receives a `send_text` call for any result. -/
theorem add_route_after_start (h : DestinationHost) (T : List (String × List Route))
    (hstart : h.taskRoutes = some T) (input_id pfx path : String) :
    h.add_route input_id "file" pfx (some path)
        = .ok { h with routes := insertRoute h.routes input_id ⟨⟨"file", some path⟩, pfx⟩ }
    ∧ ({ h with routes := insertRoute h.routes input_id ⟨⟨"file", some path⟩, pfx⟩ }
          : DestinationHost).taskRoutes = some T
    ∧ (∀ r, ({ h with routes := insertRoute h.routes input_id ⟨⟨"file", some path⟩, pfx⟩ }
          : DestinationHost).taskProcess r = h.taskProcess r) :=
  ⟨rfl, hstart, fun _ => rfl⟩

def c10Host : DestinationHost := DestinationHost.start ⟨[("mic1", [⟨d1, ""⟩])], none⟩

theorem add_route_after_start_witness :
    c10Host.add_route "mic2" "file" "[B] " (some "b.txt")
        = .ok { c10Host with
                routes := insertRoute c10Host.routes "mic2" ⟨⟨"file", some "b.txt"⟩, "[B] "⟩ }
    ∧ ({ c10Host with
         routes := insertRoute c10Host.routes "mic2" ⟨⟨"file", some "b.txt"⟩, "[B] "⟩ }
          : DestinationHost).taskRoutes = some [("mic1", [⟨d1, ""⟩])]
    ∧ (∀ r, ({ c10Host with
               routes := insertRoute c10Host.routes "mic2" ⟨⟨"file", some "b.txt"⟩, "[B] "⟩ }
          : DestinationHost).taskProcess r = c10Host.taskProcess r) :=
  add_route_after_start c10Host [("mic1", [⟨d1, ""⟩])] rfl "mic2" "[B] " "b.txt"

/-! ## AsrHost worker and NullEngine
(src/crates/asr-engine/src/host.rs, null_engine.rs) -/

/-- `AudioChunk` (asr-core/src/types.rs). -/
structure AudioChunk where
  samples : List ℚ
  sample_rate : Nat
  channels : Nat
  deriving DecidableEq

/-- The result `NullEngine::feed_audio` sends for a chunk
(null_engine.rs lines 42-57): text `"[null] {n} samples"`, empty
input id, timestamp 0, final. -/
def NullEngine.feed_audio (chunk : AudioChunk) : RecognitionResult :=
  ⟨"[null] " ++ toString chunk.samples.length ++ " samples", "", 0, true⟩

/-- The worker's result branch (asr-engine host.rs lines 95-100):
`r.input_id = input_id.clone()` before forwarding to the aggregate
sender. -/
def stampResult (worker_id : String) (r : RecognitionResult) : RecognitionResult :=
  { r with input_id := worker_id }

/-- One chunk fed through a null-engine worker: the engine's result,
stamped with the worker's id, as forwarded to the aggregate channel. -/
def nullWorkerProcessChunk (worker_id : String) (chunk : AudioChunk) : RecognitionResult :=
  stampResult worker_id (NullEngine.feed_audio chunk)

/-- C7: whatever input id an engine wrote is overwritten with the
worker's own id before forwarding (text, timestamp and finality pass
through untouched); with the null engine, a 480-sample chunk for
`mic1` reaches the aggregate receiver as
`⟨"[null] 480 samples", "mic1", 0, true⟩`. -/
theorem worker_stamps_input_id :
    (∀ (id : String) (r : RecognitionResult),
      (stampResult id r).input_id = id
      ∧ (stampResult id r).text = r.text
      ∧ (stampResult id r).timestamp = r.timestamp
      ∧ (stampResult id r).is_final = r.is_final)
    ∧ nullWorkerProcessChunk "mic1" ⟨List.replicate 480 0, 48000, 1⟩
        = ⟨"[null] 480 samples", "mic1", 0, true⟩ := by
  refine ⟨fun id r => ⟨rfl, rfl, rfl, rfl⟩, by decide⟩

end Voxmux
